import Mathlib

/-!
Verification development for `tsh` (src/src/main.rs), a tmux session handler:
it enumerates candidate directories (via `find`/`fd`), pipes them to `fzf`
for interactive selection, and attaches to / switches to / creates a tmux
session named after the selected directory.

The embedding below is a shallow model of `src/src/main.rs`.  External
subprocesses are modelled by their observable behaviour: a directory-search
invocation yields an exit status plus output lines (`FindOutput`); the `fzf`
child yields an exit status plus captured stdout (`FzfResult`); each tmux
invocation is a `TmuxCall` whose success is given by an oracle
`exec : TmuxCall → Bool`, and the session state machine returns both its
result and the ordered list of tmux calls it issued.
-/

namespace Tsh

/-- The error enum of the program, `TshError` (main.rs lines 11-18).
`IoError`'s payload (`std::io::Error`) is modelled as a `String`. -/
inductive TshError where
  | IoError : String → TshError
  | MissingDependencies : List String → TshError
  | CommandFailed : String → TshError
  | NoDirectoriesFound : TshError
  | UserCancelled : TshError
  deriving DecidableEq

/-- Observable behaviour of one directory-search subprocess invocation
(`std::process::Output`): whether `status.success()` held, and the lines of
its stdout (Rust iterates `stdout.lines()`). -/
structure FindOutput where
  success : Bool
  lines : List String
  deriving DecidableEq

/-- Observable behaviour of the spawned `fzf` child after
`wait_with_output()`: whether `status.success()` held, and its captured
stdout as one string. -/
structure FzfResult where
  success : Bool
  stdout : String
  deriving DecidableEq

/-- Whitespace test used by Rust's `str::trim` (modelled for the ASCII
whitespace characters that can occur in subprocess output). -/
def isWhitespaceChar (c : Char) : Bool :=
  c = ' ' || c = '\t' || c = '\n' || c = '\r'

/-- Character-list trim: drop whitespace from the front and from the back. -/
def trimChars (cs : List Char) : List Char :=
  ((cs.dropWhile isWhitespaceChar).reverse.dropWhile isWhitespaceChar).reverse

/-- Rust's `str::trim`: the string with surrounding whitespace removed. -/
def rustTrim (s : String) : String :=
  String.mk (trimChars s.data)

/-- The selector-bridge tail shared by `run_fd_with_fzf` (lines 191-202) and
`run_fzf_in_directory` (lines 255-266): if the fzf child exits with a failure
status the selection is `none`; otherwise its stdout is trimmed, a blank
result is `none`, anything else is the selection verbatim
(`PathBuf::from(selected)` keeps the string unchanged). -/
def fzf_selection (f : FzfResult) : Option String :=
  if f.success = false then none
  else
    let selected := rustTrim f.stdout
    if selected = "" then none else some selected

/-- Substring containment on character lists: does `pat` occur contiguously
inside `l`?  This models an unanchored regex match of a literal pattern. -/
def containsSub (pat : List Char) : List Char → Bool
  | [] => pat.isEmpty
  | c :: cs => pat.isPrefixOf (c :: cs) || containsSub pat cs

/-- The hardcoded exclusion regex of `run_fzf_in_directory` (line 227):
`/node_modules/|/\.git/|/\.cache/|/tmp/|/Library/` — an unanchored
alternation of five literal substrings (the `\.` escapes make the dots
literal). -/
def exclude_matches (line : String) : Bool :=
  containsSub "/node_modules/".data line.data ||
  containsSub "/.git/".data line.data ||
  containsSub "/.cache/".data line.data ||
  containsSub "/tmp/".data line.data ||
  containsSub "/Library/".data line.data

/-- The candidate filter of `run_fzf_in_directory` (lines 230-234): keep a
line iff it is non-empty and does not match the exclusion regex. -/
def path_search_filter (lines : List String) : List String :=
  lines.filter (fun line => !(line = "") && !(exclude_matches line))

/-- The enumeration loop of `run_fd_with_fzf` (lines 147-170): for each
search path in order, run the search subprocess; on success append its
non-empty output lines to the accumulator, on failure return immediately
with `CommandFailed("{find_cmd} command for {path}")`. -/
def collect_dirs (find_cmd : String) (out : String → FindOutput) :
    List String → Except TshError (List String)
  | [] => .ok []
  | p :: ps =>
    if (out p).success then
      match collect_dirs find_cmd out ps with
      | .ok rest => .ok ((out p).lines.filter (fun l => !(l = "")) ++ rest)
      | .error e => .error e
    else
      .error (.CommandFailed (find_cmd ++ " command for " ++ p))

/-- `run_fd_with_fzf` (lines 144-203): collect directories from every search
path; if the collected list is empty fail with `NoDirectoriesFound`;
otherwise the list is piped to fzf and the selection is computed from the
fzf child's exit status and output. -/
def run_fd_with_fzf (find_cmd : String) (out : String → FindOutput)
    (f : FzfResult) (search_paths : List String) :
    Except TshError (Option String) :=
  match collect_dirs find_cmd out search_paths with
  | .error e => .error e
  | .ok all_dirs =>
    if all_dirs.isEmpty then .error .NoDirectoriesFound
    else .ok (fzf_selection f)

/-- `run_fzf_in_directory` (lines 205-267): run the directory search rooted
at the base directory (its observable behaviour is `fo`); a failing search
is `CommandFailed("Failed to execute {find_cmd} command")`; otherwise filter
the lines through the exclusion pattern, fail with `NoDirectoriesFound` when
nothing survives, and otherwise compute the selection from the fzf child. -/
def run_fzf_in_directory (find_cmd : String) (fo : FindOutput)
    (f : FzfResult) : Except TshError (Option String) :=
  if fo.success = false then
    .error (.CommandFailed ("Failed to execute " ++ find_cmd ++ " command"))
  else
    let dirs := path_search_filter fo.lines
    if dirs.isEmpty then .error .NoDirectoriesFound
    else .ok (fzf_selection f)

/-- The named-search loop of `find_and_select_directory` (lines 100-124):
for each requested directory name in order, run
`find <home> -type d -name <name>` (behaviour given by `find_out`); on
success push its non-empty lines, on failure return immediately with
`CommandFailed("find command for {name}")`. -/
def named_search_paths (find_out : String → FindOutput) :
    List String → Except TshError (List String)
  | [] => .ok []
  | d :: ds =>
    if (find_out d).success then
      match named_search_paths find_out ds with
      | .ok rest => .ok ((find_out d).lines.filter (fun l => !(l = "")) ++ rest)
      | .error e => .error e
    else
      .error (.CommandFailed ("find command for " ++ d))

/-- `find_and_select_directory` (lines 90-142).  With a non-empty list of
requested names: run the named search, fail with `NoDirectoriesFound` when
it yields no paths, else run `run_fd_with_fzf` over the matched paths
(`sub_out` gives the behaviour of the nested enumeration per matched path).
With no names: run `run_fzf_in_directory` on the custom base directory if
given, else on the home directory (`dir_enum` gives the behaviour of the
search per base directory). -/
def find_and_select_directory (home_dir : String) (directories : List String)
    (custom_dir : Option String) (find_out : String → FindOutput)
    (find_cmd : String) (sub_out : String → FindOutput)
    (dir_enum : String → FindOutput) (f : FzfResult) :
    Except TshError (Option String) :=
  if directories.isEmpty = false then
    match named_search_paths find_out directories with
    | .error e => .error e
    | .ok search_paths =>
      if search_paths.isEmpty then .error .NoDirectoriesFound
      else run_fd_with_fzf find_cmd sub_out f search_paths
  else
    match custom_dir with
    | some d => run_fzf_in_directory find_cmd (dir_enum d) f
    | none => run_fzf_in_directory find_cmd (dir_enum home_dir) f

/-- Split a character list at every '/'. -/
def splitSlash : List Char → List (List Char)
  | [] => [[]]
  | c :: cs =>
    if c = '/' then [] :: splitSlash cs
    else
      match splitSlash cs with
      | [] => [[c]]
      | h :: t => (c :: h) :: t

/-- Rust's `Path::file_name` composed with `to_str` (line 270-272): the last
normal component of the path — empty components and `.` components are
skipped, and the result is `none` when no component remains or the last
component is `..`. -/
def fileName (p : String) : Option String :=
  match ((splitSlash p.data).filter
      (fun c => !(c = []) && !(c = ['.']))).getLast? with
  | some c => if c = ['.', '.'] then none else some (String.mk c)
  | none => none

/-- Rust's `str::replace(".", "_")` (line 276): with a one-character
pattern, every occurrence of `.` is replaced by `_`, i.e. a character map. -/
def replaceDots (s : String) : String :=
  String.mk (s.data.map (fun c => if c = '.' then '_' else c))

/-- The session-name computation of `create_tmux_session` (lines 270-276):
the final path component of the selected directory with every `.` replaced
by `_`; `none` models the `CommandFailed("Could not extract session name
from directory")` path. -/
def session_name_of (dir : String) : Option String :=
  (fileName dir).map replaceDots

/-- One tmux invocation, identified by its argument shape:
`has-session -t name`, `switch-client -t name`, `attach-session -t name`,
`new-session -d -s name -c dir`, or `new-session -A -s name -c dir`. -/
inductive TmuxCall where
  | hasSession : String → TmuxCall
  | switchClient : String → TmuxCall
  | attachSession : String → TmuxCall
  | newSessionDetached : String → String → TmuxCall
  | newSessionAttach : String → String → TmuxCall
  deriving DecidableEq

/-- `create_tmux_session` (lines 269-349).  `dir` is the selected directory
(`to_string_lossy` keeps the string unchanged), `in_tmux` is whether the
`TMUX` environment variable is set, and `exec c` tells whether tmux call `c`
exits successfully.  Returns the result together with the ordered list of
tmux calls issued.  The Rust code first probes `has-session`, then branches
on existence and on `in_tmux` exactly as below; its progress `println!`
messages are not modelled. -/
def create_tmux_session (dir : String) (in_tmux : Bool)
    (exec : TmuxCall → Bool) : Except TshError Unit × List TmuxCall :=
  match session_name_of dir with
  | none =>
    (.error (.CommandFailed "Could not extract session name from directory"),
     [])
  | some session_name =>
    let probe := TmuxCall.hasSession session_name
    let has_session := exec probe
    if has_session then
      if in_tmux then
        let c := TmuxCall.switchClient session_name
        if exec c then (.ok (), [probe, c])
        else (.error (.CommandFailed "Failed to switch tmux client"),
              [probe, c])
      else
        let c := TmuxCall.attachSession session_name
        if exec c then (.ok (), [probe, c])
        else (.error (.CommandFailed "Failed to attach to tmux session"),
              [probe, c])
    else
      if in_tmux then
        let c1 := TmuxCall.newSessionDetached session_name dir
        if exec c1 then
          let c2 := TmuxCall.switchClient session_name
          if exec c2 then (.ok (), [probe, c1, c2])
          else (.error (.CommandFailed "Failed to switch tmux client"),
                [probe, c1, c2])
        else
          (.error (.CommandFailed "Failed to create tmux session"),
           [probe, c1])
      else
        let c := TmuxCall.newSessionAttach session_name dir
        if exec c then (.ok (), [probe, c])
        else
          (.error
             (.CommandFailed "Failed to create and attach to tmux session"),
           [probe, c])

/-- The dispatch in `main` after selection (lines 66-73): a selected
directory is handed to `create_tmux_session`; `None` prints
"No directory selected. Exiting." and `main` returns `Ok(())`, i.e. the
process exits with status zero.  Returns (result, tmux calls, lines printed
by this dispatch itself). -/
def main_after_selection (selected : Option String) (in_tmux : Bool)
    (exec : TmuxCall → Bool) :
    Except TshError Unit × List TmuxCall × List String :=
  match selected with
  | some dir =>
    let r := create_tmux_session dir in_tmux exec
    (r.1, r.2, [])
  | none => (.ok (), [], ["No directory selected. Exiting."])

/-- Characterization of `List.isPrefixOf` on characters. -/
theorem isPrefixOf_eq_true_iff (l₁ l₂ : List Char) :
    l₁.isPrefixOf l₂ = true ↔ ∃ t, l₂ = l₁ ++ t := by
  induction l₁ generalizing l₂ with
  | nil => simp [List.isPrefixOf]
  | cons a l ih =>
    cases l₂ with
    | nil => simp [List.isPrefixOf]
    | cons b l₂' =>
      simp only [List.isPrefixOf, Bool.and_eq_true, beq_iff_eq, ih,
        List.cons_append, List.cons.injEq]
      constructor
      · rintro ⟨rfl, t, rfl⟩; exact ⟨t, rfl, rfl⟩
      · rintro ⟨t, rfl, rfl⟩; exact ⟨rfl, t, rfl⟩

/-- Characterization of `containsSub`: a pattern occurs iff the list splits
around it. -/
theorem containsSub_eq_true_iff (pat l : List Char) :
    containsSub pat l = true ↔ ∃ s t : List Char, l = s ++ pat ++ t := by
  induction l with
  | nil =>
    simp only [containsSub, List.isEmpty_iff]
    constructor
    · rintro rfl; exact ⟨[], [], rfl⟩
    · rintro ⟨s, t, h⟩
      rcases List.append_eq_nil.mp h.symm with ⟨h1, h2⟩
      exact (List.append_eq_nil.mp h1).2
  | cons c cs ih =>
    simp only [containsSub, Bool.or_eq_true]
    constructor
    · rintro (hp | hc)
      · rcases (isPrefixOf_eq_true_iff pat (c :: cs)).mp hp with ⟨t, ht⟩
        exact ⟨[], t, by simp [ht]⟩
      · rcases ih.mp hc with ⟨s, t, h⟩
        exact ⟨c :: s, t, by simp [h]⟩
    · rintro ⟨s, t, h⟩
      cases s with
      | nil =>
        left
        exact (isPrefixOf_eq_true_iff pat (c :: cs)).mpr ⟨t, by simpa using h⟩
      | cons a s' =>
        right
        apply ih.mpr
        have h' : c = a ∧ cs = s' ++ pat ++ t := by simpa using h
        exact ⟨s', t, h'.2⟩

/-- A pattern ending in '/' that occurs in `l₁ ++ l₂`, where `l₂` contains
no '/', already occurs in `l₁`. -/
theorem containsSub_of_append_no_slash (pat l₁ l₂ : List Char)
    (hpat : pat.getLast? = some '/') (hl₂ : ∀ c ∈ l₂, c ≠ '/')
    (h : containsSub pat (l₁ ++ l₂) = true) :
    containsSub pat l₁ = true := by
  rcases (containsSub_eq_true_iff pat (l₁ ++ l₂)).mp h with ⟨s, t, heq⟩
  by_cases hlen : l₂.length ≤ t.length
  · have ht : t = t.take (t.length - l₂.length) ++
        t.drop (t.length - l₂.length) := (List.take_append_drop _ t).symm
    have hlen2 : (t.drop (t.length - l₂.length)).length = l₂.length := by
      rw [List.length_drop, Nat.sub_sub_self hlen]
    have heq2 : ((s ++ pat) ++ t.take (t.length - l₂.length)) ++
        t.drop (t.length - l₂.length) = l₁ ++ l₂ := by
      rw [List.append_assoc (s ++ pat), List.take_append_drop]
      exact heq.symm
    have := List.append_inj' heq2 hlen2
    exact (containsSub_eq_true_iff pat l₁).mpr
      ⟨s, t.take (t.length - l₂.length), this.1.symm⟩
  · exfalso
    push_neg at hlen
    rcases List.getLast?_eq_some_iff.mp hpat with ⟨p', hp⟩
    have hsucc : t.length + 1 ≤ l₂.length := hlen
    have hl : l₂ = l₂.take (l₂.length - (t.length + 1)) ++
        l₂.drop (l₂.length - (t.length + 1)) :=
      (List.take_append_drop _ l₂).symm
    have hlen2 : (l₂.drop (l₂.length - (t.length + 1))).length =
        ('/' :: t).length := by
      rw [List.length_drop, Nat.sub_sub_self hsucc]; rfl
    have heq2 : (l₁ ++ l₂.take (l₂.length - (t.length + 1))) ++
        l₂.drop (l₂.length - (t.length + 1)) = ((s ++ p') ++ ('/' :: t)) := by
      rw [List.append_assoc, ← hl]
      rw [heq, hp]
      simp [List.append_assoc]
    have hdrop := (List.append_inj' heq2 hlen2).2
    have hmem : '/' ∈ l₂.drop (l₂.length - (t.length + 1)) := by
      rw [hdrop]; exact List.mem_cons_self _ _
    exact hl₂ '/' (List.drop_subset _ _ hmem) rfl
/-- C1: for every non-empty candidate list fed to the interactive selector
subprocess (in either search mode): if the fzf child exits with a failure
status the result is `Ok(None)` — not an error; if it exits successfully but
its trimmed output is empty the result is also `Ok(None)`; otherwise the
selection is exactly the trimmed output, with no other transformation. -/
theorem c1_selector_bridge (find_cmd : String) (out : String → FindOutput)
    (f : FzfResult) (search_paths : List String) (ds : List String)
    (hok : collect_dirs find_cmd out search_paths = .ok ds)
    (hne : ds.isEmpty = false) (fo : FindOutput) (hfo : fo.success = true)
    (hdirs : (path_search_filter fo.lines).isEmpty = false) :
    (f.success = false →
      run_fd_with_fzf find_cmd out f search_paths = .ok none ∧
      run_fzf_in_directory find_cmd fo f = .ok none) ∧
    (f.success = true → rustTrim f.stdout = "" →
      run_fd_with_fzf find_cmd out f search_paths = .ok none ∧
      run_fzf_in_directory find_cmd fo f = .ok none) ∧
    (f.success = true → rustTrim f.stdout ≠ "" →
      run_fd_with_fzf find_cmd out f search_paths =
        .ok (some (rustTrim f.stdout)) ∧
      run_fzf_in_directory find_cmd fo f =
        .ok (some (rustTrim f.stdout))) := by
  have hfd : run_fd_with_fzf find_cmd out f search_paths =
      .ok (fzf_selection f) := by
    simp [run_fd_with_fzf, hok, hne]
  have hdir : run_fzf_in_directory find_cmd fo f = .ok (fzf_selection f) := by
    simp [run_fzf_in_directory, hfo, hdirs]
  refine ⟨fun hf => ?_, fun hf ht => ?_, fun hf ht => ?_⟩ <;>
    simp [hfd, hdir, fzf_selection, hf] <;> simp [ht]

theorem c1_selector_bridge_witness :
    collect_dirs "find" (fun _ => ⟨true, ["/h/a"]⟩) ["/p"] = .ok ["/h/a"] ∧
    (["/h/a"] : List String).isEmpty = false ∧
    (⟨true, ["/h/b"]⟩ : FindOutput).success = true ∧
    (path_search_filter ["/h/b"]).isEmpty = false ∧
    (⟨true, "  /h/a \n"⟩ : FzfResult).success = true ∧
    rustTrim "  /h/a \n" ≠ "" ∧
    run_fd_with_fzf "find" (fun _ => ⟨true, ["/h/a"]⟩)
      ⟨true, "  /h/a \n"⟩ ["/p"] = .ok (some "/h/a") := by
  refine ⟨rfl, by decide, by decide, by decide, by decide, by decide, ?_⟩
  have h := (c1_selector_bridge "find" (fun _ => ⟨true, ["/h/a"]⟩)
    ⟨true, "  /h/a \n"⟩ ["/p"] ["/h/a"] rfl (by decide)
    ⟨true, ["/h/b"]⟩ (by decide) (by decide)).2.2 (by decide) (by decide)
  exact h.1

/-- C2: when the existence probe reports the session exists and the caller
is inside tmux, `create_tmux_session` issues exactly the probe followed by
`switch-client`, and never issues `attach-session` or any `new-session`
variant. -/
theorem c2_switch_when_inside (dir name : String) (exec : TmuxCall → Bool)
    (hname : session_name_of dir = some name)
    (hex : exec (TmuxCall.hasSession name) = true) :
    (create_tmux_session dir true exec).2 =
      [TmuxCall.hasSession name, TmuxCall.switchClient name] ∧
    TmuxCall.switchClient name ∈ (create_tmux_session dir true exec).2 ∧
    (∀ c ∈ (create_tmux_session dir true exec).2,
      (∀ n, c ≠ TmuxCall.attachSession n) ∧
      (∀ n d, c ≠ TmuxCall.newSessionDetached n d) ∧
      (∀ n d, c ≠ TmuxCall.newSessionAttach n d)) := by
  have htr : (create_tmux_session dir true exec).2 =
      [TmuxCall.hasSession name, TmuxCall.switchClient name] := by
    by_cases hsw : exec (TmuxCall.switchClient name) = true <;>
      simp [create_tmux_session, hname, hex, hsw]
  refine ⟨htr, ?_, ?_⟩
  · rw [htr]; simp
  · rw [htr]
    intro c hc
    fin_cases hc <;>
      refine ⟨fun n h => ?_, fun n d h => ?_, fun n d h => ?_⟩ <;> cases h

theorem c2_switch_when_inside_witness :
    session_name_of "/home/u/proj" = some "proj" ∧
    (create_tmux_session "/home/u/proj" true (fun _ => true)).2 =
      [TmuxCall.hasSession "proj", TmuxCall.switchClient "proj"] := by
  refine ⟨by decide, ?_⟩
  exact (c2_switch_when_inside "/home/u/proj" "proj" (fun _ => true)
    (by decide) rfl).1

/-- C3: when the existence probe reports no session and the caller is
outside tmux, exactly one combined create-or-attach call
(`new-session -A`) is issued with working directory equal to the selected
path, nothing else beyond the probe; a success yields `Ok(())`, a failure
yields `CommandFailed` describing the create-and-attach operation. -/
theorem c3_create_attach_outside (dir name : String) (exec : TmuxCall → Bool)
    (hname : session_name_of dir = some name)
    (hex : exec (TmuxCall.hasSession name) = false) :
    (create_tmux_session dir false exec).2 =
      [TmuxCall.hasSession name, TmuxCall.newSessionAttach name dir] ∧
    (exec (TmuxCall.newSessionAttach name dir) = true →
      (create_tmux_session dir false exec).1 = .ok ()) ∧
    (exec (TmuxCall.newSessionAttach name dir) = false →
      (create_tmux_session dir false exec).1 =
        .error
          (.CommandFailed "Failed to create and attach to tmux session")) := by
  refine ⟨?_, fun hc => ?_, fun hc => ?_⟩
  · by_cases hc : exec (TmuxCall.newSessionAttach name dir) = true <;>
      simp [create_tmux_session, hname, hex, hc]
  · simp [create_tmux_session, hname, hex, hc]
  · simp [create_tmux_session, hname, hex, hc]

theorem c3_create_attach_outside_witness :
    session_name_of "/home/u/proj" = some "proj" ∧
    ((fun c => c = TmuxCall.newSessionAttach "proj" "/home/u/proj")
        (TmuxCall.hasSession "proj") = false) ∧
    (create_tmux_session "/home/u/proj" false
        (fun c => c = TmuxCall.newSessionAttach "proj" "/home/u/proj")).2 =
      [TmuxCall.hasSession "proj",
       TmuxCall.newSessionAttach "proj" "/home/u/proj"] := by
  refine ⟨by decide, by decide, ?_⟩
  exact (c3_create_attach_outside "/home/u/proj" "proj"
    (fun c => c = TmuxCall.newSessionAttach "proj" "/home/u/proj")
    (by decide) (by decide)).1

/-- C4: when the existence probe reports no session and the caller is inside
tmux, the resolver first creates the session detached with working directory
equal to the selected path and then issues `switch-client`; a failing
creation returns `CommandFailed` for the create step and the trace stops
before any switch attempt; a successful creation followed by a failing
switch returns `CommandFailed` for the switch step. -/
theorem c4_create_then_switch_inside (dir name : String)
    (exec : TmuxCall → Bool) (hname : session_name_of dir = some name)
    (hex : exec (TmuxCall.hasSession name) = false) :
    (exec (TmuxCall.newSessionDetached name dir) = false →
      create_tmux_session dir true exec =
        (.error (.CommandFailed "Failed to create tmux session"),
         [TmuxCall.hasSession name,
          TmuxCall.newSessionDetached name dir])) ∧
    (exec (TmuxCall.newSessionDetached name dir) = true →
      (create_tmux_session dir true exec).2 =
        [TmuxCall.hasSession name, TmuxCall.newSessionDetached name dir,
         TmuxCall.switchClient name] ∧
      (exec (TmuxCall.switchClient name) = false →
        (create_tmux_session dir true exec).1 =
          .error (.CommandFailed "Failed to switch tmux client")) ∧
      (exec (TmuxCall.switchClient name) = true →
        (create_tmux_session dir true exec).1 = .ok ())) := by
  refine ⟨fun hc => ?_, fun hc => ⟨?_, fun hs => ?_, fun hs => ?_⟩⟩
  · simp [create_tmux_session, hname, hex, hc]
  · by_cases hs : exec (TmuxCall.switchClient name) = true <;>
      simp [create_tmux_session, hname, hex, hc, hs]
  · simp [create_tmux_session, hname, hex, hc, hs]
  · simp [create_tmux_session, hname, hex, hc, hs]

theorem c4_create_then_switch_inside_witness :
    session_name_of "/home/u/proj" = some "proj" ∧
    create_tmux_session "/home/u/proj" true (fun _ => false) =
      (.error (.CommandFailed "Failed to create tmux session"),
       [TmuxCall.hasSession "proj",
        TmuxCall.newSessionDetached "proj" "/home/u/proj"]) := by
  refine ⟨by decide, ?_⟩
  exact (c4_create_then_switch_inside "/home/u/proj" "proj" (fun _ => false)
    (by decide) rfl).1 rfl

/-- C5: the session identity is a pure function of the selected directory's
final path component only, and equals that component with every literal `.`
replaced by `_`; in particular a final component `a.b.c` yields `a_b_c`
regardless of the parent path. -/
theorem c5_session_identity :
    (∀ p q : String, fileName p = fileName q →
      session_name_of p = session_name_of q) ∧
    (∀ (p c : String), fileName p = some c →
      session_name_of p =
        some (String.mk (c.data.map (fun ch => if ch = '.' then '_' else ch)))) ∧
    session_name_of "/home/u/a.b.c" = some "a_b_c" ∧
    session_name_of "/elsewhere/deep/nest/a.b.c" = some "a_b_c" := by
  refine ⟨fun p q h => ?_, fun p c h => ?_, by decide, by decide⟩
  · simp [session_name_of, h]
  · simp [session_name_of, h, replaceDots]

theorem c5_session_identity_witness :
    fileName "/x/y/a.b.c" = some "a.b.c" ∧
    session_name_of "/x/y/a.b.c" = some "a_b_c" := by
  refine ⟨by decide, ?_⟩
  have h := c5_session_identity.2.1 "/x/y/a.b.c" "a.b.c" (by decide)
  simpa using h

/-- C6: in PathSearch mode, every candidate line that matches one of the
five exclusion substrings, and every empty line, is absent from the filtered
candidate set, unconditionally. -/
theorem c6_path_search_exclusion (lines : List String) (l : String)
    (h : exclude_matches l = true ∨ l = "") :
    l ∉ path_search_filter lines := by
  intro hmem
  rcases List.mem_filter.mp hmem with ⟨-, hkeep⟩
  rcases h with h | h <;> simp [h] at hkeep

theorem c6_path_search_exclusion_witness :
    (exclude_matches "/home/u/proj/node_modules/x" = true ∨
      "/home/u/proj/node_modules/x" = "") ∧
    "/home/u/proj/node_modules/x" ∉
      path_search_filter
        ["/home/u/proj", "/home/u/proj/node_modules/x", "/home/u/.git/h"] := by
  refine ⟨Or.inl (by decide), ?_⟩
  exact c6_path_search_exclusion
    ["/home/u/proj", "/home/u/proj/node_modules/x", "/home/u/.git/h"]
    "/home/u/proj/node_modules/x" (Or.inl (by decide))

/-- C7: in both search modes an enumeration that completes successfully but
yields zero usable lines fails with `NoDirectoriesFound` (whatever the fzf
child would do — it is never reached), while a search subprocess exiting
with a non-zero status — anywhere in the list, after any succeeding
searches — fails with `CommandFailed` naming the failed pattern or
command, both for the nested enumeration of `run_fd_with_fzf` and for the
top-level named search of `find_and_select_directory`; the two error
variants are distinct. -/
theorem c7_empty_vs_failed :
    (∀ (fc : String) (out : String → FindOutput) (f : FzfResult)
        (paths : List String),
      (∀ p ∈ paths, (out p).success = true ∧
        (out p).lines.filter (fun l => !(l = "")) = []) →
      run_fd_with_fzf fc out f paths = .error .NoDirectoriesFound) ∧
    (∀ (fc : String) (out : String → FindOutput) (f : FzfResult)
        (ps₁ : List String) (p : String) (ps₂ : List String),
      (∀ q ∈ ps₁, (out q).success = true) →
      (out p).success = false →
      run_fd_with_fzf fc out f (ps₁ ++ p :: ps₂) =
        .error (.CommandFailed (fc ++ " command for " ++ p))) ∧
    (∀ (home : String) (names : List String) (fo : String → FindOutput)
        (fc : String) (so de : String → FindOutput) (f : FzfResult),
      names.isEmpty = false →
      (∀ d ∈ names, (fo d).success = true ∧
        (fo d).lines.filter (fun l => !(l = "")) = []) →
      find_and_select_directory home names none fo fc so de f =
        .error .NoDirectoriesFound) ∧
    (∀ (home : String) (ns₁ : List String) (d : String) (ns₂ : List String)
        (cdir : Option String) (fo : String → FindOutput) (fc : String)
        (so de : String → FindOutput) (f : FzfResult),
      (∀ q ∈ ns₁, (fo q).success = true) →
      (fo d).success = false →
      find_and_select_directory home (ns₁ ++ d :: ns₂) cdir fo fc so de f =
        .error (.CommandFailed ("find command for " ++ d))) ∧
    (∀ (fc : String) (fo : FindOutput) (f : FzfResult),
      fo.success = true → path_search_filter fo.lines = [] →
      run_fzf_in_directory fc fo f = .error .NoDirectoriesFound) ∧
    (∀ (fc : String) (fo : FindOutput) (f : FzfResult),
      fo.success = false →
      run_fzf_in_directory fc fo f =
        .error (.CommandFailed ("Failed to execute " ++ fc ++ " command"))) ∧
    (∀ s, TshError.CommandFailed s ≠ TshError.NoDirectoriesFound) := by
  have hcollect : ∀ (fc : String) (out : String → FindOutput)
      (paths : List String),
      (∀ p ∈ paths, (out p).success = true ∧
        (out p).lines.filter (fun l => !(l = "")) = []) →
      collect_dirs fc out paths = .ok [] := by
    intro fc out paths h
    induction paths with
    | nil => rfl
    | cons p ps ih =>
      have hp := h p (List.mem_cons_self p ps)
      have hps := ih (fun q hq => h q (List.mem_cons_of_mem p hq))
      simp [collect_dirs, hp.1, hps, hp.2]
  have hnamed : ∀ (fo : String → FindOutput) (names : List String),
      (∀ d ∈ names, (fo d).success = true ∧
        (fo d).lines.filter (fun l => !(l = "")) = []) →
      named_search_paths fo names = .ok [] := by
    intro fo names h
    induction names with
    | nil => rfl
    | cons d ds ih =>
      have hd := h d (List.mem_cons_self d ds)
      have hds := ih (fun q hq => h q (List.mem_cons_of_mem d hq))
      simp [named_search_paths, hd.1, hds, hd.2]
  have hcollectfail : ∀ (fc : String) (out : String → FindOutput)
      (ps₁ : List String) (p : String) (ps₂ : List String),
      (∀ q ∈ ps₁, (out q).success = true) → (out p).success = false →
      collect_dirs fc out (ps₁ ++ p :: ps₂) =
        .error (.CommandFailed (fc ++ " command for " ++ p)) := by
    intro fc out ps₁ p ps₂ h hfail
    induction ps₁ with
    | nil => simp [collect_dirs, hfail]
    | cons q qs ih =>
      have hq := h q (List.mem_cons_self q qs)
      have hqs := ih (fun r hr => h r (List.mem_cons_of_mem q hr))
      simp [collect_dirs, hq, hqs]
  have hnamedfail : ∀ (fo : String → FindOutput) (ns₁ : List String)
      (d : String) (ns₂ : List String),
      (∀ q ∈ ns₁, (fo q).success = true) → (fo d).success = false →
      named_search_paths fo (ns₁ ++ d :: ns₂) =
        .error (.CommandFailed ("find command for " ++ d)) := by
    intro fo ns₁ d ns₂ h hfail
    induction ns₁ with
    | nil => simp [named_search_paths, hfail]
    | cons q qs ih =>
      have hq := h q (List.mem_cons_self q qs)
      have hqs := ih (fun r hr => h r (List.mem_cons_of_mem q hr))
      simp [named_search_paths, hq, hqs]
  refine ⟨?_, ?_, ?_, ?_, ?_, ?_, ?_⟩
  · intro fc out f paths h
    simp [run_fd_with_fzf, hcollect fc out paths h]
  · intro fc out f ps₁ p ps₂ h hfail
    simp [run_fd_with_fzf, hcollectfail fc out ps₁ p ps₂ h hfail]
  · intro home names fo fc so de f hne h
    simp [find_and_select_directory, hne, hnamed fo names h]
  · intro home ns₁ d ns₂ cdir fo fc so de f h hfail
    have hne : (ns₁ ++ d :: ns₂).isEmpty = false := by
      simp
    simp [find_and_select_directory, hne,
      hnamedfail fo ns₁ d ns₂ h hfail]
  · intro fc fo f hs hf
    simp [run_fzf_in_directory, hs, hf]
  · intro fc fo f hs
    simp [run_fzf_in_directory, hs]
  · intro s h
    cases h

theorem c7_empty_vs_failed_witness :
    ((∀ p ∈ (["/p"] : List String),
        ((fun _ => (⟨true, [""]⟩ : FindOutput)) p).success = true ∧
        ((fun _ => (⟨true, [""]⟩ : FindOutput)) p).lines.filter
          (fun l => !(l = "")) = []) ∧
      run_fd_with_fzf "find" (fun _ => ⟨true, [""]⟩) ⟨true, "x"⟩ ["/p"] =
        .error .NoDirectoriesFound) ∧
    ((∀ q ∈ (["/ok"] : List String),
        ((fun p => if p = "/bad" then (⟨false, []⟩ : FindOutput)
            else ⟨true, ["/x"]⟩) q).success = true) ∧
      ((fun p => if p = "/bad" then (⟨false, []⟩ : FindOutput)
          else ⟨true, ["/x"]⟩) "/bad").success = false ∧
      run_fd_with_fzf "fd"
        (fun p => if p = "/bad" then ⟨false, []⟩ else ⟨true, ["/x"]⟩)
        ⟨true, "x"⟩ ["/ok", "/bad"] =
        .error (.CommandFailed "fd command for /bad")) ∧
    ((∀ q ∈ (["good"] : List String),
        ((fun d => if d = "bad" then (⟨false, []⟩ : FindOutput)
            else ⟨true, ["/h/good"]⟩) q).success = true) ∧
      find_and_select_directory "/home/u" ["good", "bad"] none
        (fun d => if d = "bad" then ⟨false, []⟩ else ⟨true, ["/h/good"]⟩)
        "fd" (fun _ => ⟨true, []⟩) (fun _ => ⟨true, []⟩) ⟨true, "x"⟩ =
        .error (.CommandFailed "find command for bad")) := by
  refine ⟨⟨by decide, ?_⟩, ⟨by decide, by decide, ?_⟩, ⟨by decide, ?_⟩⟩
  · exact c7_empty_vs_failed.1 "find" (fun _ => ⟨true, [""]⟩) ⟨true, "x"⟩
      ["/p"] (by decide)
  · exact c7_empty_vs_failed.2.1 "fd"
      (fun p => if p = "/bad" then ⟨false, []⟩ else ⟨true, ["/x"]⟩)
      ⟨true, "x"⟩ ["/ok"] "/bad" [] (by decide) (by decide)
  · exact c7_empty_vs_failed.2.2.2.1 "/home/u" ["good"] "bad" [] none
      (fun d => if d = "bad" then ⟨false, []⟩ else ⟨true, ["/h/good"]⟩)
      "fd" (fun _ => ⟨true, []⟩) (fun _ => ⟨true, []⟩) ⟨true, "x"⟩
      (by decide) (by decide)

/-- C8: when the selection is `None` — which is exactly what the selector
bridge produces on a failing fzf exit status — `main` prints the
informational "No directory selected. Exiting." message, issues no tmux
call at all, and returns `Ok(())`, i.e. the process exits with status
zero. -/
theorem c8_cancellation_is_not_error :
    (∀ (in_tmux : Bool) (exec : TmuxCall → Bool),
      main_after_selection none in_tmux exec =
        (.ok (), [], ["No directory selected. Exiting."])) ∧
    (∀ f : FzfResult, f.success = false → fzf_selection f = none) := by
  refine ⟨fun in_tmux exec => rfl, fun f hf => ?_⟩
  simp [fzf_selection, hf]

theorem c8_cancellation_is_not_error_witness :
    main_after_selection none true (fun _ => true) =
      (.ok (), [], ["No directory selected. Exiting."]) ∧
    ((⟨false, "whatever"⟩ : FzfResult).success = false ∧
      fzf_selection ⟨false, "whatever"⟩ = none) := by
  exact ⟨c8_cancellation_is_not_error.1 true (fun _ => true),
    rfl, c8_cancellation_is_not_error.2 ⟨false, "whatever"⟩ rfl⟩

/-- C9: the nested enumeration of `run_fd_with_fzf` applies no exclusion
filter: when every sub-search succeeds, the collected candidate list (the
list subsequently written to fzf's stdin) is exactly the concatenation of
each sub-search's output lines with only the empty lines dropped — in
particular every non-empty line, including ones containing
`/node_modules/`, `/.git/`, `/.cache/`, `/tmp/` or `/Library/`, appears. -/
theorem c9_no_exclusion_in_named_mode (fc : String)
    (out : String → FindOutput) (paths : List String)
    (h : ∀ p ∈ paths, (out p).success = true) :
    collect_dirs fc out paths =
      .ok (paths.flatMap (fun p => (out p).lines.filter (fun l => !(l = "")))) ∧
    (∀ p ∈ paths, ∀ l ∈ (out p).lines, l ≠ "" →
      ∀ ds, collect_dirs fc out paths = .ok ds → l ∈ ds) := by
  have hmain : collect_dirs fc out paths =
      .ok (paths.flatMap
        (fun p => (out p).lines.filter (fun l => !(l = "")))) := by
    induction paths with
    | nil => rfl
    | cons p ps ih =>
      have hp := h p (List.mem_cons_self p ps)
      have hps := ih (fun q hq => h q (List.mem_cons_of_mem p hq))
      simp [collect_dirs, hp, hps]
  refine ⟨hmain, fun p hp l hl hlne ds hds => ?_⟩
  rw [hmain] at hds
  cases hds
  refine List.mem_flatMap.mpr ⟨p, hp, List.mem_filter.mpr ⟨hl, ?_⟩⟩
  simp [hlne]

/-- C10 counterexample: `/a/node_modules/node_modules` has final component
`node_modules` with no trailing slash, yet the exclusion pattern matches it
(through the parent occurrence `/node_modules/`) and the candidate filter
drops it — refuting the claim that every such path remains in the
candidate set. -/
theorem c10_counterexample :
    fileName "/a/node_modules/node_modules" = some "node_modules" ∧
    exclude_matches "/a/node_modules/node_modules" = true ∧
    "/a/node_modules/node_modules" ∉
      path_search_filter ["/a/node_modules/node_modules"] := by decide

/-- C10 (amended): the exclusion pattern only matches an excluded name when
it is followed by a further path separator, so a candidate whose final
component is `node_modules`, `.git`, `.cache`, `tmp` or `Library` (no
trailing slash) is not excluded and remains in the candidate set —
provided the pattern does not also match within the preceding part of the
path (e.g. through a parent component that is itself an excluded name). -/
theorem c10_final_component_not_excluded (pre name : String)
    (hname : name = "node_modules" ∨ name = ".git" ∨ name = ".cache" ∨
      name = "tmp" ∨ name = "Library")
    (hclean : exclude_matches (pre ++ "/") = false) :
    exclude_matches (pre ++ "/" ++ name) = false ∧
    ∀ lines : List String, (pre ++ "/" ++ name) ∈ lines →
      (pre ++ "/" ++ name) ∈ path_search_filter lines := by
  have hdata : (pre ++ "/" ++ name).data = (pre ++ "/").data ++ name.data :=
    String.data_append _ _
  have hnoslash : ∀ c ∈ name.data, c ≠ '/' := by
    rcases hname with rfl | rfl | rfl | rfl | rfl <;> decide
  have hkey : ∀ pat : List Char, pat.getLast? = some '/' →
      containsSub pat (pre ++ "/").data = false →
      containsSub pat (pre ++ "/" ++ name).data = false := by
    intro pat hlast hfalse
    rw [hdata]
    by_contra hcon
    rw [Bool.not_eq_false] at hcon
    rw [containsSub_of_append_no_slash pat (pre ++ "/").data name.data
      hlast hnoslash hcon] at hfalse
    cases hfalse
  have hcleans := hclean
  simp only [exclude_matches, Bool.or_eq_false_iff] at hcleans
  obtain ⟨⟨⟨⟨h1, h2⟩, h3⟩, h4⟩, h5⟩ := hcleans
  have hex : exclude_matches (pre ++ "/" ++ name) = false := by
    simp only [exclude_matches, Bool.or_eq_false_iff]
    exact ⟨⟨⟨⟨hkey _ (by decide) h1, hkey _ (by decide) h2⟩,
      hkey _ (by decide) h3⟩, hkey _ (by decide) h4⟩,
      hkey _ (by decide) h5⟩
  refine ⟨hex, fun lines hmem => ?_⟩
  have hne : ¬(pre ++ "/" ++ name) = "" := by
    intro h0
    have : (pre ++ "/" ++ name).data = [] := by rw [h0]
    rw [hdata] at this
    rcases List.append_eq_nil.mp this with ⟨h1', h2'⟩
    rcases hname with rfl | rfl | rfl | rfl | rfl <;> cases h2'
  exact List.mem_filter.mpr ⟨hmem, by simp [hne, hex]⟩

theorem c10_final_component_not_excluded_witness :
    ("node_modules" = "node_modules" ∨ "node_modules" = ".git" ∨
      "node_modules" = ".cache" ∨ "node_modules" = "tmp" ∨
      "node_modules" = "Library") ∧
    exclude_matches ("/home/u/proj" ++ "/") = false ∧
    exclude_matches ("/home/u/proj" ++ "/" ++ "node_modules") = false ∧
    ("/home/u/proj" ++ "/" ++ "node_modules") ∈
      path_search_filter ["/home/u/proj/node_modules"] := by
  refine ⟨Or.inl rfl, by decide, ?_, ?_⟩
  · exact (c10_final_component_not_excluded "/home/u/proj" "node_modules"
      (Or.inl rfl) (by decide)).1
  · exact (c10_final_component_not_excluded "/home/u/proj" "node_modules"
      (Or.inl rfl) (by decide)).2 ["/home/u/proj/node_modules"]
      (by decide)

theorem c9_no_exclusion_in_named_mode_witness :
    collect_dirs "fd"
      (fun _ => ⟨true, ["/h/p/node_modules/x", "", "/h/p/.git/hooks"]⟩)
      ["/h/p"] =
      .ok ["/h/p/node_modules/x", "/h/p/.git/hooks"] ∧
    "/h/p/node_modules/x" ∈
      (["/h/p/node_modules/x", "/h/p/.git/hooks"] : List String) := by
  refine ⟨?_, by decide⟩
  have h := (c9_no_exclusion_in_named_mode "fd"
    (fun _ => ⟨true, ["/h/p/node_modules/x", "", "/h/p/.git/hooks"]⟩)
    ["/h/p"] (by decide)).1
  simpa using h


end Tsh
